import Mathlib

/-!
Shallow embedding of the product-title extraction server (src/server.py) and
proofs about its pipeline: candidate extraction, deduplication, NER scoring,
ranking, and the HTTP envelope of the analyze endpoint.

External collaborators (the HTTP fetch, the HTML parser, the NER model) are
modelled as explicit inputs: a fetch outcome carrying a status code and a flat
document-order list of elements, and an oracle function from a text to a
classification outcome.  Floating-point scores are modelled as exact
rationals.
-/

namespace Server

/-- Whitespace test used to model Python str.strip (leading/trailing
whitespace removal). -/
def isWS (c : Char) : Bool := c.isWhitespace

/-- Models Python str.strip(): drop leading and trailing whitespace. -/
def pyStrip (s : String) : String :=
  String.mk (((s.toList.dropWhile isWS).reverse.dropWhile isWS).reverse)

/-- Models Python str.lower() on the class tokens (ASCII case mapping, which
is all the source compares against). -/
def pyLower (s : String) : String := String.mk (s.toList.map Char.toLower)

/-- needle is an initial segment of hay. -/
def startsWithChars : List Char → List Char → Bool
  | [], _ => true
  | _ :: _, [] => false
  | a :: as, b :: bs => a == b && startsWithChars as bs

/-- Models the Python substring test needle in hay. -/
def hasSubChars (needle : List Char) : List Char → Bool
  | [] => startsWithChars needle []
  | b :: bs => startsWithChars needle (b :: bs) || hasSubChars needle bs

/-- Models Python s.startswith(pre). -/
def pyStartsWith (s pre : String) : Bool := startsWithChars pre.toList s.toList

/-- Models Python needle in hay for strings. -/
def pyInStr (needle hay : String) : Bool := hasSubChars needle.toList hay.toList

/-- The class attribute of a parsed element, as returned by tag.get("class"):
missing, a single string, or a list of class tokens. -/
inductive ClassAttr where
  | absent
  | single (s : String)
  | multi (cs : List String)
deriving DecidableEq

/-- One element of the parsed document, in document order.  textStrip is the
value of tag.get_text(strip=True). -/
structure Element where
  tag : String
  classAttr : ClassAttr
  textStrip : String
deriving DecidableEq

def h1Tag : String := "h1"

def classHintTags : List String := ["p", "div", "span"]

def substrName : String := "name"

def substrTitle : String := "title"

/-- Models any(substr in c.lower() for substr in ["name", "title"]). -/
def tokenHit (c : String) : Bool :=
  pyInStr substrName (pyLower c) || pyInStr substrTitle (pyLower c)

/-- Models (cls if isinstance(cls, list) else [cls]). -/
def classTokens : ClassAttr → List String
  | .absent => []
  | .single s => [s]
  | .multi cs => cs

/-- Python truthiness of the class attribute (None, "" and [] are falsy). -/
def classTruthy : ClassAttr → Bool
  | .absent => false
  | .single s => !(s == "")
  | .multi cs => !cs.isEmpty

/-- Models the guard of the second extraction loop:
cls and any(any(substr in c.lower() for substr in ["name","title"]) for c in ...). -/
def classHit (ca : ClassAttr) : Bool := classTruthy ca && (classTokens ca).any tokenHit

/-- The two extraction loops of extract_possible_titles (server.py lines
36-46): first a pass over find_all(['h1']) appending each nonempty stripped
text, then a pass over find_all(['p','div','span']) appending the nonempty
stripped text of each element whose class attribute matches the name/title
hint.  Both passes append to the same accumulator, in document order. -/
def extract_candidates (doc : List Element) : List String :=
  let c1 := doc.foldl (fun a e =>
    if e.tag == h1Tag && !(e.textStrip == "") then a ++ [e.textStrip] else a) []
  doc.foldl (fun a e =>
    if classHintTags.contains e.tag && classHit e.classAttr && !(e.textStrip == "")
    then a ++ [e.textStrip] else a) c1

/-- The heading-rule candidates in document order. -/
def headingPass (doc : List Element) : List String :=
  doc.filterMap (fun e =>
    if e.tag == h1Tag && !(e.textStrip == "") then some e.textStrip else none)

/-- The class-hint-rule candidates in document order. -/
def classHintPass (doc : List Element) : List String :=
  doc.filterMap (fun e =>
    if classHintTags.contains e.tag && classHit e.classAttr && !(e.textStrip == "")
    then some e.textStrip else none)

/-- The deduplication loop of analyze_url (server.py lines 150-155): a single
pass with a seen-set, keeping the first occurrence of each exact string. -/
def dedupSeen (seen : List String) : List String → List String
  | [] => []
  | t :: ts => if t ∈ seen then dedupSeen seen ts else t :: dedupSeen (t :: seen) ts

/-- unique_titles as computed in analyze_url. -/
def unique_titles (titles : List String) : List String := dedupSeen [] titles

/-- Index of the first occurrence of x in a list (list length when absent). -/
def firstIdx (x : String) : List String → ℕ
  | [] => 0
  | y :: ys => if y = x then 0 else firstIdx x ys + 1

/-- One finding returned by the NER oracle for a text: the optional
entity_group and entity fields (the label may sit in either) and the optional
score, a probability modelled as an exact rational. -/
structure Entity where
  entity_group : Option String
  entity : Option String
  score : Option ℚ

def productLabel : String := "PRODUCT"

/-- Models entity.get('entity_group') == 'PRODUCT' or entity.get('entity') == 'PRODUCT'
(server.py line 84). -/
def isProduct (e : Entity) : Bool :=
  e.entity_group == some productLabel || e.entity == some productLabel

/-- Models Python int() on a rational: truncation toward zero. -/
def pyInt (q : ℚ) : ℤ := Int.tdiv q.num q.den

/-- One entry of the results list: the candidate text and the probability
string built by f-string interpolation, f"\x7bint(confidence * 100)\x7d%". -/
structure ScoredResult where
  text : String
  prob : String
deriving DecidableEq

def pctSuffix : String := "%"

/-- The prob_percent string of server.py line 86. -/
def pctString (confidence : ℚ) : String := toString (pyInt (confidence * 100)) ++ pctSuffix

/-- The result dict appended at server.py lines 88-91, for a qualifying
entity: confidence = entity.get('score', 0). -/
def mkResult (text : String) (e : Entity) : ScoredResult :=
  { text := text, prob := pctString (e.score.getD 0) }

/-- Outcome of one invocation ner_pipeline(text): either an exception
(caught at server.py line 94) or a list of entity findings. -/
inductive OracleResp where
  | failure
  | ok (entities : List Entity)

/-- The body of the per-text loop of process_with_ner (server.py lines
76-96): skip empty/short texts, invoke the oracle, and emit the result built
from the first PRODUCT finding, if any (the break at line 92).  A failed
invocation yields nothing for this text. -/
def scoreOne (oracle : String → OracleResp) (text : String) : Option ScoredResult :=
  if text = "" ∨ (pyStrip text).length < 2 then none
  else
    match oracle text with
    | .failure => none
    | .ok entities => (entities.find? isProduct).map (mkResult text)

/-- process_with_ner (server.py lines 69-98): returns [] when the model is
not loaded, otherwise one optional result per input text, in order. -/
def process_with_ner (loaded : Bool) (oracle : String → OracleResp) (texts : List String) :
    List ScoredResult :=
  if loaded then texts.filterMap (scoreOne oracle) else []

/-- The texts on which the loop of process_with_ner reaches the call
ner_pipeline(text): those passing the guard at line 77, when the model is
loaded. -/
def nerInvocations (loaded : Bool) (texts : List String) : List String :=
  if loaded then texts.filter (fun t => decide (¬(t = "" ∨ (pyStrip t).length < 2))) else []

/-- Models x['prob'].replace('%', ''): for the single-character pattern this
removes every percent character. -/
def stripPct (s : String) : String := String.mk (s.toList.filter (fun c => !(c == '%')))

/-- Decimal digits to a natural number, Python-int style. -/
def digitsToNat (l : List Char) : ℕ := l.foldl (fun n c => 10 * n + (c.toNat - 48)) 0

/-- Models Python int() on a canonical decimal string (optional minus sign
followed by digits), the only shape the pipeline produces. -/
def pyIntOfString (s : String) : ℤ :=
  match s.toList with
  | '-' :: rest => -(digitsToNat rest : ℤ)
  | l => (digitsToNat l : ℤ)

/-- The sort key of server.py line 161: int(x['prob'].replace('%', '')). -/
def sortKey (r : ScoredResult) : ℤ := pyIntOfString (stripPct r.prob)

/-- The order of results.sort(key=..., reverse=True): r comes no later than
s when the key of s is at most the key of r. -/
def rankRel (r s : ScoredResult) : Prop := sortKey s ≤ sortKey r

instance : DecidableRel rankRel := fun r s => inferInstanceAs (Decidable (sortKey s ≤ sortKey r))

instance : IsTotal ScoredResult rankRel := ⟨fun r s => le_total (sortKey s) (sortKey r)⟩

instance : IsTrans ScoredResult rankRel := ⟨fun _ _ _ hab hbc => le_trans hbc hab⟩

/-- Models results.sort(key=lambda x: int(x['prob'].replace('%','')), reverse=True):
a stable sort by non-increasing key. -/
def rankResults (rs : List ScoredResult) : List ScoredResult := List.insertionSort rankRel rs

/-- The JSON body of an analyze response. -/
structure AnalyzeBody where
  error : Bool
  results : List ScoredResult
  products_identified : ℕ
  total_titles_found : ℕ
  message : Option String
deriving DecidableEq

/-- An HTTP reply: status code and JSON body. -/
structure HttpReply where
  status : ℕ
  body : AnalyzeBody
deriving DecidableEq

inductive FetchFailureKind where
  | ssl
  | connection
  | timedOut
  | httpError
  | requestOther
  | general
deriving DecidableEq

/-- Outcome of the requests.get call: a raised transport failure (one of the
except clauses of server.py lines 50-67) or a reply with a status code and a
parsed document. -/
inductive FetchOutcome where
  | failed (k : FetchFailureKind)
  | fetched (statusCode : ℕ) (doc : List Element)

/-- extract_possible_titles (server.py lines 23-67) as a function of the
fetch outcome: any transport failure, or a non-200 status, yields ([], True);
a 200 reply yields the extracted candidates and False. -/
def extract_possible_titles (f : FetchOutcome) : List String × Bool :=
  match f with
  | .failed _ => ([], true)
  | .fetched status doc =>
    if status ≠ 200 then ([], true) else (extract_candidates doc, false)

/-- The request body as seen by analyze_url: no JSON at all, JSON without a
url key, or JSON with a url string. -/
inductive RequestBody where
  | noJson
  | jsonWithoutUrl
  | jsonWithUrl (url : String)

def msgNoUrl : String := "URL не предоставлен"

def msgBadUrl : String := "Некорректный URL"

def msgScrape : String := "Ошибка при извлечении данных с сайта"

def msgNoTitles : String := "Не удалось извлечь названия с данной страницы"

def msgInternal : String := "Внутренняя ошибка сервера"

/-- The empty error payload used by every error branch of analyze_url. -/
def emptyErrorBody (m : String) : AnalyzeBody :=
  { error := true, results := [], products_identified := 0, total_titles_found := 0,
    message := some m }

def schemeHttp : String := "http://"

def schemeHttps : String := "https://"

/-- Models url.startswith(('http://', 'https://')) at server.py line 117. -/
def urlOk (url : String) : Bool := pyStartsWith url schemeHttp || pyStartsWith url schemeHttps

/-- analyze_url (server.py lines 100-170), with the external collaborators
(request JSON, model state, oracle, fetch) as explicit inputs.  The final
500 branch (lines 172-180) catches exceptions that cannot arise in this
total model; its constant reply is internalErrorReply below. -/
def analyze_url (body : RequestBody) (loaded : Bool) (oracle : String → OracleResp)
    (fetch : FetchOutcome) : HttpReply :=
  match body with
  | .noJson => ⟨400, emptyErrorBody msgNoUrl⟩
  | .jsonWithoutUrl => ⟨400, emptyErrorBody msgNoUrl⟩
  | .jsonWithUrl url =>
    if !(urlOk url) then ⟨400, emptyErrorBody msgBadUrl⟩
    else
      let p := extract_possible_titles fetch
      if p.2 then ⟨200, emptyErrorBody msgScrape⟩
      else if p.1.isEmpty then
        ⟨200, { error := false, results := [], products_identified := 0,
                total_titles_found := 0, message := some msgNoTitles }⟩
      else
        let uniq := unique_titles p.1
        let results := rankResults (process_with_ner loaded oracle uniq)
        ⟨200, { error := false, results := results, products_identified := results.length,
                total_titles_found := uniq.length, message := none }⟩

/-- The reply of the top-level except branch (server.py lines 172-180). -/
def internalErrorReply : HttpReply := ⟨500, emptyErrorBody msgInternal⟩

/-! Lemmas about the deduplication pass. -/

theorem mem_dedupSeen (x : String) (l : List String) : ∀ seen : List String,
    x ∈ dedupSeen seen l ↔ x ∈ l ∧ x ∉ seen := by
  induction l with
  | nil => intro seen; simp [dedupSeen]
  | cons t ts ih =>
    intro seen
    simp only [dedupSeen]
    by_cases h : t ∈ seen
    · rw [if_pos h, ih seen]
      constructor
      · rintro ⟨hx, hns⟩; exact ⟨List.mem_cons_of_mem t hx, hns⟩
      · rintro ⟨hx, hns⟩
        rcases List.mem_cons.mp hx with rfl | hx'
        · exact absurd h hns
        · exact ⟨hx', hns⟩
    · rw [if_neg h]
      constructor
      · intro hx
        rcases List.mem_cons.mp hx with rfl | hx'
        · exact ⟨List.mem_cons_self x ts, h⟩
        · obtain ⟨hts, hns⟩ := (ih (t :: seen)).mp hx'
          exact ⟨List.mem_cons_of_mem t hts, fun hs => hns (List.mem_cons_of_mem t hs)⟩
      · rintro ⟨hx, hns⟩
        by_cases hxt : x = t
        · subst hxt; exact List.mem_cons_self x _
        · rcases List.mem_cons.mp hx with h1 | h1
          · exact absurd h1 hxt
          · refine List.mem_cons_of_mem t ((ih (t :: seen)).mpr ⟨h1, fun hmem => ?_⟩)
            rcases List.mem_cons.mp hmem with h2 | h2
            · exact hxt h2
            · exact hns h2

theorem dedupSeen_sublist (l : List String) : ∀ seen : List String,
    (dedupSeen seen l).Sublist l := by
  induction l with
  | nil => intro seen; simp [dedupSeen]
  | cons t ts ih =>
    intro seen
    simp only [dedupSeen]
    by_cases h : t ∈ seen
    · rw [if_pos h]; exact (ih seen).cons t
    · rw [if_neg h]; exact (ih (t :: seen)).cons₂ t

theorem dedupSeen_nodup (l : List String) : ∀ seen : List String,
    (dedupSeen seen l).Nodup := by
  induction l with
  | nil => intro seen; simp [dedupSeen]
  | cons t ts ih =>
    intro seen
    simp only [dedupSeen]
    by_cases h : t ∈ seen
    · rw [if_pos h]; exact ih seen
    · rw [if_neg h]
      refine List.Pairwise.cons (fun b hb => ?_) (ih (t :: seen))
      intro hbt
      exact ((mem_dedupSeen b ts (t :: seen)).mp hb).2 (hbt ▸ List.mem_cons_self t seen)

theorem dedupSeen_pairwise_firstIdx (l : List String) : ∀ seen : List String,
    List.Pairwise (fun a b => firstIdx a l < firstIdx b l) (dedupSeen seen l) := by
  induction l with
  | nil => intro seen; simp [dedupSeen]
  | cons t ts ih =>
    intro seen
    simp only [dedupSeen]
    by_cases h : t ∈ seen
    · rw [if_pos h]
      refine (ih seen).imp_of_mem ?_
      intro a b ha hb hlt
      have haT : t ≠ a := fun he => ((mem_dedupSeen a ts seen).mp ha).2 (he ▸ h)
      have hbT : t ≠ b := fun he => ((mem_dedupSeen b ts seen).mp hb).2 (he ▸ h)
      simp only [firstIdx, if_neg haT, if_neg hbT]
      omega
    · rw [if_neg h]
      refine List.Pairwise.cons (fun b hb => ?_) ?_
      · have hbT : t ≠ b := fun he =>
          ((mem_dedupSeen b ts (t :: seen)).mp hb).2 (he ▸ List.mem_cons_self t seen)
        have h1 : firstIdx t (t :: ts) = 0 := by simp [firstIdx]
        have h2 : firstIdx b (t :: ts) = firstIdx b ts + 1 := by simp [firstIdx, if_neg hbT]
        omega
      · refine (ih (t :: seen)).imp_of_mem ?_
        intro a b ha hb hlt
        have haT : t ≠ a := fun he =>
          ((mem_dedupSeen a ts (t :: seen)).mp ha).2 (he ▸ List.mem_cons_self t seen)
        have hbT : t ≠ b := fun he =>
          ((mem_dedupSeen b ts (t :: seen)).mp hb).2 (he ▸ List.mem_cons_self t seen)
        simp only [firstIdx, if_neg haT, if_neg hbT]
        omega

/-- C2: the deduplication pass keeps only the first occurrence of each exact
string: its output is no longer than the input, has no two textually
identical elements, is a subsequence of the input containing exactly the
input's strings, and lists them in order of strictly increasing first
occurrence.  Comparison is exact string equality. -/
theorem dedup_first_occurrence_spec (l : List String) :
    (unique_titles l).length ≤ l.length ∧
    (unique_titles l).Nodup ∧
    (unique_titles l).Sublist l ∧
    (∀ x, x ∈ unique_titles l ↔ x ∈ l) ∧
    List.Pairwise (fun a b => firstIdx a l < firstIdx b l) (unique_titles l) := by
  refine ⟨(dedupSeen_sublist l []).length_le, dedupSeen_nodup l [], dedupSeen_sublist l [],
    fun x => ?_, dedupSeen_pairwise_firstIdx l []⟩
  rw [unique_titles, mem_dedupSeen]
  simp

/-! Lemmas about the scorer. -/

theorem scoreOne_some_iff (oracle : String → OracleResp) (t : String) (r : ScoredResult) :
    scoreOne oracle t = some r ↔
      ¬(t = "" ∨ (pyStrip t).length < 2) ∧
      ∃ es e, oracle t = .ok es ∧ es.find? isProduct = some e ∧ r = mkResult t e := by
  rw [scoreOne]
  by_cases hg : t = "" ∨ (pyStrip t).length < 2
  · rw [if_pos hg]
    simp [hg]
  · rw [if_neg hg]
    cases ho : oracle t with
    | failure => simp [hg]
    | ok es =>
      simp only [Option.map_eq_some', hg, not_false_iff, true_and]
      constructor
      · rintro ⟨e, hfind, rfl⟩; exact ⟨es, e, rfl, hfind, rfl⟩
      · rintro ⟨es', e, hes, hfind, rfl⟩
        cases hes
        exact ⟨e, hfind, rfl⟩

theorem scoreOne_text (oracle : String → OracleResp) (t : String) (r : ScoredResult)
    (h : scoreOne oracle t = some r) : r.text = t := by
  obtain ⟨-, es, e, -, -, rfl⟩ := (scoreOne_some_iff oracle t r).mp h
  rfl

theorem mem_process_with_ner (oracle : String → OracleResp) (texts : List String)
    (r : ScoredResult) :
    r ∈ process_with_ner true oracle texts ↔ ∃ t ∈ texts, scoreOne oracle t = some r := by
  rw [process_with_ner, if_pos rfl]
  exact List.mem_filterMap

theorem filter_text_process_le_one (oracle : String → OracleResp) (text : String) :
    ∀ texts : List String, texts.Nodup →
      (List.filter (fun r => r.text == text) (texts.filterMap (scoreOne oracle))).length ≤ 1 := by
  intro texts
  induction texts with
  | nil => intro _; simp
  | cons t ts ih =>
    intro hnd
    obtain ⟨htn, hts⟩ := List.nodup_cons.mp hnd
    rw [List.filterMap_cons]
    cases hs : scoreOne oracle t with
    | none => exact ih hts
    | some r =>
      rw [List.filter_cons]
      by_cases hr : (r.text == text) = true
      · rw [if_pos hr]
        have hrt : t = text := by
          have := scoreOne_text oracle t r hs
          rw [← this]; exact beq_iff_eq.mp hr
        have hnil : List.filter (fun r => r.text == text) (ts.filterMap (scoreOne oracle)) = [] := by
          rw [List.filter_eq_nil_iff]
          intro a ha hmem
          obtain ⟨t', ht', hs'⟩ := List.mem_filterMap.mp ha
          have : a.text = t' := scoreOne_text oracle t' a hs'
          rw [this] at hmem
          exact htn (by rw [hrt]; exact (beq_iff_eq.mp hmem) ▸ ht')
        rw [hnil]
        simp
      · rw [if_neg hr]
        exact ih hts

/-- C3: a candidate reaching the oracle is retained exactly when some finding
carries the PRODUCT label in its entity_group or entity field; the first
qualifying finding is the one used (the break); and on a duplicate-free
candidate list at most one result carries a given candidate text. -/
theorem scorer_retention_first_match (oracle : String → OracleResp) (texts : List String)
    (text : String) (entities : List Entity)
    (hmem : text ∈ texts)
    (hg : ¬(text = "" ∨ (pyStrip text).length < 2))
    (hor : oracle text = .ok entities) :
    ((∃ r ∈ process_with_ner true oracle texts, r.text = text) ↔
        ∃ e ∈ entities, isProduct e = true) ∧
    (∀ r ∈ process_with_ner true oracle texts, r.text = text →
        ∃ e, entities.find? isProduct = some e ∧ r = mkResult text e) ∧
    (texts.Nodup →
      (List.filter (fun r => r.text == text)
        (process_with_ner true oracle texts)).length ≤ 1) := by
  refine ⟨⟨?_, ?_⟩, ?_, ?_⟩
  · rintro ⟨r, hr, hrt⟩
    obtain ⟨t', ht', hs⟩ := (mem_process_with_ner oracle texts r).mp hr
    have : t' = text := by rw [← hrt]; exact (scoreOne_text oracle t' r hs).symm
    subst this
    obtain ⟨-, es, e, hes, hfind, -⟩ := (scoreOne_some_iff oracle t' r).mp hs
    rw [hor] at hes
    cases hes
    exact ⟨e, List.mem_of_find?_eq_some hfind, List.find?_some hfind⟩
  · rintro ⟨e, he, hpe⟩
    have hfind : ∃ e', entities.find? isProduct = some e' := by
      cases hf : entities.find? isProduct with
      | none => exact absurd hpe (by simpa using List.find?_eq_none.mp hf e he)
      | some e' => exact ⟨e', rfl⟩
    obtain ⟨e', hf⟩ := hfind
    refine ⟨mkResult text e', ?_, rfl⟩
    exact (mem_process_with_ner oracle texts _).mpr
      ⟨text, hmem, (scoreOne_some_iff oracle text _).mpr ⟨hg, entities, e', hor, hf, rfl⟩⟩
  · intro r hr hrt
    obtain ⟨t', ht', hs⟩ := (mem_process_with_ner oracle texts r).mp hr
    have : t' = text := by rw [← hrt]; exact (scoreOne_text oracle t' r hs).symm
    subst this
    obtain ⟨-, es, e, hes, hfind, hre⟩ := (scoreOne_some_iff oracle t' r).mp hs
    rw [hor] at hes
    cases hes
    exact ⟨e, hfind, hre⟩
  · intro hnd
    rw [process_with_ner, if_pos rfl]
    exact filter_text_process_le_one oracle text texts hnd

/-- C3 witness: with one candidate whose oracle response has a qualifying
second finding, the candidate is retained with the first qualifying finding
and appears exactly once. -/
theorem scorer_retention_first_match_witness :
    ((∃ r ∈ process_with_ner true
        (fun _ => OracleResp.ok [⟨some productLabel, none, some 1⟩, ⟨none, some productLabel, none⟩])
        ["Oak Chair"], r.text = "Oak Chair") ↔
      ∃ e ∈ [(⟨some productLabel, none, some 1⟩ : Entity), ⟨none, some productLabel, none⟩],
        isProduct e = true) := by
  have h := scorer_retention_first_match
    (fun _ => OracleResp.ok [⟨some productLabel, none, some 1⟩, ⟨none, some productLabel, none⟩])
    ["Oak Chair"] "Oak Chair"
    [⟨some productLabel, none, some 1⟩, ⟨none, some productLabel, none⟩]
    (by decide) (by decide) rfl
  exact h.1

/-- C5: a candidate whose stripped text is shorter than 2 characters is not
among the texts handed to the oracle, is scored to nothing, and never
appears in the output of process_with_ner. -/
theorem short_candidates_skipped (loaded : Bool) (oracle : String → OracleResp)
    (texts : List String) (text : String) (h : (pyStrip text).length < 2) :
    text ∉ nerInvocations loaded texts ∧
    scoreOne oracle text = none ∧
    ∀ r ∈ process_with_ner loaded oracle texts, r.text ≠ text := by
  refine ⟨?_, ?_, ?_⟩
  · rw [nerInvocations]
    cases loaded with
    | false => simp
    | true =>
      rw [if_pos rfl]
      intro hmem
      have := List.of_mem_filter hmem
      simp only [decide_eq_true_eq] at this
      exact this (Or.inr h)
  · rw [scoreOne, if_pos (Or.inr h)]
  · intro r hr hrt
    cases loaded with
    | false => simp [process_with_ner] at hr
    | true =>
      obtain ⟨t', ht', hs⟩ := (mem_process_with_ner oracle texts r).mp hr
      have htt : t' = text := by rw [← hrt]; exact (scoreOne_text oracle t' r hs).symm
      subst htt
      obtain ⟨hg, -⟩ := (scoreOne_some_iff oracle t' r).mp hs
      exact hg (Or.inr h)

/-- C5 witness: the one-character candidate "x" is skipped. -/
theorem short_candidates_skipped_witness :
    "x" ∉ nerInvocations true ["x", "Oak Chair"] ∧
    scoreOne (fun _ => OracleResp.ok []) "x" = none ∧
    ∀ r ∈ process_with_ner true (fun _ => OracleResp.ok []) ["x", "Oak Chair"],
      r.text ≠ "x" :=
  short_candidates_skipped true (fun _ => OracleResp.ok []) ["x", "Oak Chair"] "x" (by decide)

/-- C6: for a retained finding with score c between 0 and 1, the reported
percentage is the floor of c * 100 (Python int() truncates, and truncation
equals the floor on nonnegative values), lies between 0 and 100, and is
rendered as that integer followed by a percent sign. -/
theorem confidence_percent_floor (text : String) (g u : Option String) (c : ℚ)
    (h0 : 0 ≤ c) (h1 : c ≤ 1) :
    mkResult text ⟨g, u, some c⟩ = ⟨text, toString ⌊c * 100⌋ ++ pctSuffix⟩ ∧
    pyInt (c * 100) = ⌊c * 100⌋ ∧
    0 ≤ ⌊c * 100⌋ ∧ ⌊c * 100⌋ ≤ 100 := by
  have hq : (0 : ℚ) ≤ c * 100 := by positivity
  have hpi : pyInt (c * 100) = ⌊c * 100⌋ := by
    rw [pyInt, Rat.floor_def]
    exact Int.tdiv_eq_ediv (Rat.num_nonneg.mpr hq) (Int.ofNat_nonneg _)
  have hb1 : ⌊c * 100⌋ ≤ 100 := by
    have hle : c * 100 ≤ (100 : ℚ) := by nlinarith
    calc ⌊c * 100⌋ ≤ ⌊(100 : ℚ)⌋ := Int.floor_le_floor hle
    _ = 100 := by norm_num
  refine ⟨?_, hpi, Int.floor_nonneg.mpr hq, hb1⟩
  simp [mkResult, pctString, hpi]

def oakChair : String := "Oak Chair"

/-- C6 witness: a score of 87/100 is reported as the string 87%. -/
theorem confidence_percent_floor_witness :
    mkResult oakChair ⟨none, none, some ((87 : ℚ)/100)⟩ = ⟨oakChair, "87%"⟩ := by
  have h := confidence_percent_floor oakChair none none ((87 : ℚ)/100)
    (by norm_num) (by norm_num)
  have hf : (⌊(87 : ℚ)/100 * 100⌋ : ℤ) = 87 := by norm_num
  rw [h.1, hf]
  decide

/-- C7: when the oracle invocation for one candidate raises, that candidate
is scored to nothing and the surrounding candidates are processed exactly as
they would be without it. -/
theorem oracle_failure_skips_candidate (oracle : String → OracleResp) (pre post : List String)
    (t : String) (h : oracle t = OracleResp.failure) :
    scoreOne oracle t = none ∧
    process_with_ner true oracle (pre ++ t :: post) =
      process_with_ner true oracle pre ++ process_with_ner true oracle post := by
  have hnone : scoreOne oracle t = none := by
    rw [scoreOne]
    by_cases hg : t = "" ∨ (pyStrip t).length < 2
    · rw [if_pos hg]
    · rw [if_neg hg, h]
  refine ⟨hnone, ?_⟩
  simp [process_with_ner, List.filterMap_append, List.filterMap_cons, hnone]

def badWord : String := "Bad"

/-- An oracle that raises on the candidate "Bad" and returns no findings
otherwise, for the C7 witness. -/
def oracleFailW : String → OracleResp :=
  fun t => if t = "Bad" then .failure else .ok []

/-- C7 witness: a failing middle candidate leaves the processing of the
others untouched. -/
theorem oracle_failure_skips_candidate_witness :
    scoreOne oracleFailW badWord = none ∧
    process_with_ner true oracleFailW (["Oak Chair"] ++ badWord :: ["Desk"]) =
      process_with_ner true oracleFailW ["Oak Chair"] ++
        process_with_ner true oracleFailW ["Desk"] :=
  oracle_failure_skips_candidate oracleFailW ["Oak Chair"] ["Desk"] badWord rfl

/-! Lemmas about the extraction passes. -/

theorem ite_some_none_eq_some {β : Type} {c : Prop} [Decidable c] {a x : β} :
    (if c then some a else none) = some x ↔ c ∧ a = x := by
  by_cases h : c <;> simp [h]

theorem extract_fold1_eq (doc : List Element) : ∀ acc : List String,
    doc.foldl (fun a e =>
      if e.tag == h1Tag && !(e.textStrip == "") then a ++ [e.textStrip] else a) acc
      = acc ++ headingPass doc := by
  induction doc with
  | nil => intro acc; simp [headingPass]
  | cons t ts ih =>
    intro acc
    rw [List.foldl_cons]
    by_cases h : (t.tag == h1Tag && !(t.textStrip == "")) = true
    · rw [if_pos h, ih]
      have hh : headingPass (t :: ts) = t.textStrip :: headingPass ts := by
        rw [headingPass, List.filterMap_cons, if_pos h, headingPass]
      rw [hh]
      simp
    · rw [if_neg h, ih]
      have hh : headingPass (t :: ts) = headingPass ts := by
        rw [headingPass, List.filterMap_cons, if_neg h, headingPass]
      rw [hh]

theorem extract_fold2_eq (doc : List Element) : ∀ acc : List String,
    doc.foldl (fun a e =>
      if classHintTags.contains e.tag && classHit e.classAttr && !(e.textStrip == "")
      then a ++ [e.textStrip] else a) acc
      = acc ++ classHintPass doc := by
  induction doc with
  | nil => intro acc; simp [classHintPass]
  | cons t ts ih =>
    intro acc
    rw [List.foldl_cons]
    by_cases h : (classHintTags.contains t.tag && classHit t.classAttr && !(t.textStrip == "")) = true
    · rw [if_pos h, ih]
      have hh : classHintPass (t :: ts) = t.textStrip :: classHintPass ts := by
        rw [classHintPass, List.filterMap_cons, if_pos h, classHintPass]
      rw [hh]
      simp
    · rw [if_neg h, ih]
      have hh : classHintPass (t :: ts) = classHintPass ts := by
        rw [classHintPass, List.filterMap_cons, if_neg h, classHintPass]
      rw [hh]

/-- C9: the extractor emits the heading-rule candidates first and the
class-hint-rule candidates after them, each pass in document order; the
heading pass holds exactly the nonempty stripped texts of h1 elements, and
the class-hint pass exactly the nonempty stripped texts of p/div/span
elements whose class attribute matches the name/title hint. -/
theorem heading_before_class_hint (doc : List Element) :
    extract_candidates doc = headingPass doc ++ classHintPass doc ∧
    (∀ x, x ∈ headingPass doc ↔
      ∃ e ∈ doc, e.tag = h1Tag ∧ e.textStrip ≠ "" ∧ e.textStrip = x) ∧
    (∀ x, x ∈ classHintPass doc ↔
      ∃ e ∈ doc, e.tag ∈ classHintTags ∧ classHit e.classAttr = true ∧
        e.textStrip ≠ "" ∧ e.textStrip = x) := by
  refine ⟨?_, ?_, ?_⟩
  · rw [extract_candidates, extract_fold1_eq doc [], extract_fold2_eq doc]
    simp
  · intro x
    simp only [headingPass, List.mem_filterMap, ite_some_none_eq_some, Bool.and_eq_true,
      beq_iff_eq, Bool.not_eq_true', beq_eq_false_iff_ne, ne_eq, and_assoc]
  · intro x
    simp only [classHintPass, List.mem_filterMap, ite_some_none_eq_some, Bool.and_eq_true,
      beq_iff_eq, Bool.not_eq_true', beq_eq_false_iff_ne, ne_eq, and_assoc]
    simp

/-! Lemmas about the analyze endpoint. -/

theorem isEmpty_false_of_ne_nil {l : List String} (h : l ≠ []) : l.isEmpty = false := by
  cases l with
  | nil => exact absurd rfl h
  | cons a l => rfl

theorem analyze_success_reduction (url : String) (loaded : Bool) (oracle : String → OracleResp)
    (doc : List Element) (hurl : urlOk url = true) (hne : extract_candidates doc ≠ []) :
    analyze_url (.jsonWithUrl url) loaded oracle (.fetched 200 doc) =
      ⟨200, { error := false,
              results := rankResults
                (process_with_ner loaded oracle (unique_titles (extract_candidates doc))),
              products_identified := (rankResults
                (process_with_ner loaded oracle (unique_titles (extract_candidates doc)))).length,
              total_titles_found := (unique_titles (extract_candidates doc)).length,
              message := none }⟩ := by
  simp [analyze_url, extract_possible_titles, hurl, isEmpty_false_of_ne_nil hne]

/-- C1: on the success path the endpoint replies 200 with error false, a
results list sorted by non-increasing sort key (the integer percentage),
products_identified equal to the length of that list, and total_titles_found
equal to the size of the deduplicated candidate set. -/
theorem analyze_success_envelope (url : String) (loaded : Bool) (oracle : String → OracleResp)
    (doc : List Element) (hurl : urlOk url = true) (hne : extract_candidates doc ≠ []) :
    (analyze_url (.jsonWithUrl url) loaded oracle (.fetched 200 doc)).status = 200 ∧
    (analyze_url (.jsonWithUrl url) loaded oracle (.fetched 200 doc)).body.error = false ∧
    List.Sorted rankRel
      (analyze_url (.jsonWithUrl url) loaded oracle (.fetched 200 doc)).body.results ∧
    (analyze_url (.jsonWithUrl url) loaded oracle (.fetched 200 doc)).body.products_identified
      = (analyze_url (.jsonWithUrl url) loaded oracle (.fetched 200 doc)).body.results.length ∧
    (analyze_url (.jsonWithUrl url) loaded oracle (.fetched 200 doc)).body.total_titles_found
      = (unique_titles (extract_candidates doc)).length := by
  rw [analyze_success_reduction url loaded oracle doc hurl hne]
  exact ⟨rfl, rfl, List.sorted_insertionSort rankRel _, rfl, rfl⟩

/-- A loaded oracle classifying "Oak Chair" as a PRODUCT with score 87/100,
for concrete instantiations. -/
def oracleW : String → OracleResp :=
  fun t => if t = "Oak Chair" then .ok [⟨some productLabel, none, some ((87 : ℚ)/100)⟩]
           else .ok []

def prodNameClass : String := "product-name"

def witnessUrl : String := "http://shop.example"

/-- A two-element document: an h1 and a div with a product-name class, both
reading "Oak Chair". -/
def docW : List Element :=
  [⟨"h1", .absent, "Oak Chair"⟩, ⟨"div", .single prodNameClass, "Oak Chair"⟩]

/-- C1 witness: the success envelope on a concrete page and oracle. -/
theorem analyze_success_envelope_witness :
    (analyze_url (.jsonWithUrl witnessUrl) true oracleW (.fetched 200 docW)).status = 200 ∧
    (analyze_url (.jsonWithUrl witnessUrl) true oracleW (.fetched 200 docW)).body.error = false ∧
    List.Sorted rankRel
      (analyze_url (.jsonWithUrl witnessUrl) true oracleW (.fetched 200 docW)).body.results ∧
    (analyze_url (.jsonWithUrl witnessUrl) true oracleW (.fetched 200 docW)).body.products_identified
      = (analyze_url (.jsonWithUrl witnessUrl) true oracleW (.fetched 200 docW)).body.results.length ∧
    (analyze_url (.jsonWithUrl witnessUrl) true oracleW (.fetched 200 docW)).body.total_titles_found
      = (unique_titles (extract_candidates docW)).length :=
  analyze_success_envelope witnessUrl true oracleW docW (by decide) (by decide)

/-- C4: with a well-formed URL, every transport failure and every non-200
fetch yield the 200-status error envelope with the generic extraction-failure
message and zero counts, while a fetched page with no candidates yields the
200-status non-error envelope with the explanatory message; the two messages
differ. -/
theorem fetch_failure_vs_no_candidates (url : String) (loaded : Bool)
    (oracle : String → OracleResp) (k : FetchFailureKind) (status : ℕ)
    (docF docE : List Element)
    (hurl : urlOk url = true) (hstatus : status ≠ 200)
    (hempty : extract_candidates docE = []) :
    analyze_url (.jsonWithUrl url) loaded oracle (.failed k) =
      ⟨200, emptyErrorBody msgScrape⟩ ∧
    analyze_url (.jsonWithUrl url) loaded oracle (.fetched status docF) =
      ⟨200, emptyErrorBody msgScrape⟩ ∧
    analyze_url (.jsonWithUrl url) loaded oracle (.fetched 200 docE) =
      ⟨200, { error := false, results := [], products_identified := 0,
              total_titles_found := 0, message := some msgNoTitles }⟩ ∧
    msgScrape ≠ msgNoTitles := by
  refine ⟨?_, ?_, ?_, by decide⟩
  · simp [analyze_url, extract_possible_titles, hurl]
  · simp [analyze_url, extract_possible_titles, hurl, hstatus]
  · simp [analyze_url, extract_possible_titles, hurl, hempty]

/-- C4 witness: a 404 fetch and a candidate-free page on concrete inputs. -/
theorem fetch_failure_vs_no_candidates_witness :
    analyze_url (.jsonWithUrl witnessUrl) true oracleW (.failed .connection) =
      ⟨200, emptyErrorBody msgScrape⟩ ∧
    analyze_url (.jsonWithUrl witnessUrl) true oracleW (.fetched 404 docW) =
      ⟨200, emptyErrorBody msgScrape⟩ ∧
    analyze_url (.jsonWithUrl witnessUrl) true oracleW
        (.fetched 200 [⟨"p", .absent, "hello"⟩]) =
      ⟨200, { error := false, results := [], products_identified := 0,
              total_titles_found := 0, message := some msgNoTitles }⟩ ∧
    msgScrape ≠ msgNoTitles :=
  fetch_failure_vs_no_candidates witnessUrl true oracleW .connection 404
    docW [⟨"p", .absent, "hello"⟩] (by decide) (by decide) (by decide)

/-- C8: a missing url field or a url without an http or https scheme is
rejected with status 400, error true and a descriptive message, and the
reply does not depend on the model state, the oracle or the fetch outcome. -/
theorem invalid_url_rejected_400 (loaded loaded' : Bool) (oracle oracle' : String → OracleResp)
    (fetch fetch' : FetchOutcome) (url : String) (hbad : urlOk url = false) :
    analyze_url .noJson loaded oracle fetch = ⟨400, emptyErrorBody msgNoUrl⟩ ∧
    analyze_url .jsonWithoutUrl loaded oracle fetch = ⟨400, emptyErrorBody msgNoUrl⟩ ∧
    analyze_url (.jsonWithUrl url) loaded oracle fetch = ⟨400, emptyErrorBody msgBadUrl⟩ ∧
    analyze_url (.jsonWithUrl url) loaded oracle fetch =
      analyze_url (.jsonWithUrl url) loaded' oracle' fetch' := by
  have hb : ∀ (ld : Bool) (orc : String → OracleResp) (f : FetchOutcome),
      analyze_url (.jsonWithUrl url) ld orc f = ⟨400, emptyErrorBody msgBadUrl⟩ := by
    intro ld orc f
    simp [analyze_url, hbad]
  exact ⟨rfl, rfl, hb loaded oracle fetch,
    (hb loaded oracle fetch).trans (hb loaded' oracle' fetch').symm⟩

/-- C8 witness: the scheme-less url "example.com" is rejected regardless of
the collaborators. -/
def schemelessUrl : String := "example.com"

/-- C8 witness reuses this scheme-less url. -/
theorem invalid_url_rejected_400_witness :
    analyze_url .noJson true oracleW (.failed .ssl) = ⟨400, emptyErrorBody msgNoUrl⟩ ∧
    analyze_url .jsonWithoutUrl true oracleW (.failed .ssl) = ⟨400, emptyErrorBody msgNoUrl⟩ ∧
    analyze_url (.jsonWithUrl schemelessUrl) true oracleW (.failed .ssl) =
      ⟨400, emptyErrorBody msgBadUrl⟩ ∧
    analyze_url (.jsonWithUrl schemelessUrl) true oracleW (.failed .ssl) =
      analyze_url (.jsonWithUrl schemelessUrl) false oracleW (.fetched 200 docW) :=
  invalid_url_rejected_400 true false oracleW oracleW (.failed .ssl) (.fetched 200 docW)
    schemelessUrl (by decide)

/-- C10: whenever a reply body of the analyze endpoint carries error true,
its results list is empty and both counters are zero; the constant
internal-error reply satisfies the same invariant. -/
theorem error_implies_empty_payload (body : RequestBody) (loaded : Bool)
    (oracle : String → OracleResp) (fetch : FetchOutcome) :
    ((analyze_url body loaded oracle fetch).body.error = true →
      (analyze_url body loaded oracle fetch).body.results = [] ∧
      (analyze_url body loaded oracle fetch).body.products_identified = 0 ∧
      (analyze_url body loaded oracle fetch).body.total_titles_found = 0) ∧
    internalErrorReply.body.error = true ∧
    internalErrorReply.body.results = [] ∧
    internalErrorReply.body.products_identified = 0 ∧
    internalErrorReply.body.total_titles_found = 0 := by
  refine ⟨?_, rfl, rfl, rfl, rfl⟩
  cases body with
  | noJson => intro _; exact ⟨rfl, rfl, rfl⟩
  | jsonWithoutUrl => intro _; exact ⟨rfl, rfl, rfl⟩
  | jsonWithUrl url =>
    by_cases hu : urlOk url = true
    · cases fetch with
      | failed k => intro _; simp [analyze_url, extract_possible_titles, emptyErrorBody, hu]
      | fetched status doc =>
        by_cases hst : status = 200
        · subst hst
          by_cases hie : extract_candidates doc = []
          · intro _; simp [analyze_url, extract_possible_titles, hu, hie]
          · intro herr
            exfalso
            have hfalse :
                (analyze_url (.jsonWithUrl url) loaded oracle (.fetched 200 doc)).body.error
                  = false := by
              simp [analyze_url, extract_possible_titles, hu, isEmpty_false_of_ne_nil hie]
            rw [hfalse] at herr
            exact Bool.false_ne_true herr
        · intro _; simp [analyze_url, extract_possible_titles, emptyErrorBody, hu, hst]
    · intro _
      have hbad : urlOk url = false := by
        cases hval : urlOk url with
        | false => rfl
        | true => exact absurd hval hu
      simp [analyze_url, emptyErrorBody, hbad]

/-- C10 witness: the missing-url reply carries empty results and zero
counts. -/
theorem error_implies_empty_payload_witness :
    (analyze_url .noJson true oracleW (.failed .ssl)).body.results = [] ∧
    (analyze_url .noJson true oracleW (.failed .ssl)).body.products_identified = 0 ∧
    (analyze_url .noJson true oracleW (.failed .ssl)).body.total_titles_found = 0 :=
  (error_implies_empty_payload .noJson true oracleW (.failed .ssl)).1 rfl

end Server
